import Mathlib

/-!
Verification of pycomplete.py (python-mode.el 6.0.11 completion backend).

This file shallowly embeds the completion engine of pycomplete.py:
the syntax-tree walkers (ImportExtractor, CodeRemover), the per-document
completion context (PyCompleteDocument) with its namespace dictionaries and
caches, and the public operations built on them.  Pure Python functions are
translated to Lean functions; the ambient Python runtime (exec, eval,
the module system, pydoc rendering, file reading) is abstracted as an
explicit environment of functions, and Python exceptions are modelled as
explicit error values threaded through the call structure exactly where the
source raises and catches them.
-/

set_option maxHeartbeats 1000000
set_option maxRecDepth 10000

namespace PyComplete

/-! ### Character-level string helpers

Python string operations used by the source (`s.split('.')`, `s.rfind('.')`,
slicing, `os.path.commonprefix`, `k.startswith(s)`) are modelled on the
character list underlying a Lean string, which matches Python's
character-indexed semantics. -/

/-- Split a character list at every dot, like Python `s.split('.')`. -/
def splitChars : List Char → List (List Char)
  | [] => [[]]
  | c :: rest =>
    let r := splitChars rest
    if c = '.' then [] :: r
    else
      match r with
      | h :: t => (c :: h) :: t
      | [] => [[c]]

/-- Python `s.split('.')`. -/
def splitDots (s : String) : List String :=
  (splitChars s.data).map String.mk

/-- Python `'.'.join(xs)`. -/
def joinDots : List String → String
  | [] => ""
  | [x] => x
  | x :: rest => x ++ "." ++ joinDots rest

/-- Index of the last occurrence of a character, like Python `s.rfind(c)`
(`none` plays the role of `-1`). -/
def lastIdxOf : List Char → Char → Option Nat
  | [], _ => none
  | x :: xs, c =>
    match lastIdxOf xs c with
    | some i => some (i + 1)
    | none => if x = c then some 0 else none

/-- Python slice `s[:n]` (character-indexed). -/
def charTake (s : String) (n : Nat) : String := String.mk (s.data.take n)

/-- Python slice `s[n:]` (character-indexed). -/
def charDrop (s : String) (n : Nat) : String := String.mk (s.data.drop n)

/-- Number of characters, Python `len(s)`. -/
def strLen (s : String) : Nat := s.data.length

/-- Python `s.startswith(pre)`. -/
def strStartsWith (s pre : String) : Bool := pre.data.isPrefixOf s.data

/-- Longest common prefix of two character lists. -/
def lcp2 : List Char → List Char → List Char
  | c :: as, d :: bs => if c = d then c :: lcp2 as bs else []
  | _, _ => []

/-- Python `os.path.commonprefix(xs)`: longest common prefix of all the
strings, `""` for an empty list. -/
def lcpAll : List String → String
  | [] => ""
  | x :: xs => String.mk (xs.foldl (fun acc y => lcp2 acc y.data) x.data)

/-- Strict lexicographic comparison of character lists by code point,
matching Python string `<`. -/
def charListLt : List Char → List Char → Bool
  | [], [] => false
  | [], _ :: _ => true
  | _ :: _, [] => false
  | a :: as, b :: bs => if a < b then true else if b < a then false else charListLt as bs

/-- Insert a string into a lexicographically sorted list. -/
def insertSorted (x : String) : List String → List String
  | [] => [x]
  | y :: ys => if charListLt x.data y.data then x :: y :: ys else y :: insertSorted x ys

/-- Sort a list of strings lexicographically, Python `list.sort()`. -/
def sortStrings (xs : List String) : List String := xs.foldr insertSorted []

/-- Remove duplicates keeping first occurrences; together with
`sortStrings` this models Python's `sorted(set(...))` pipeline used for
symbol-name collection. -/
def dedupGo (seen : List String) : List String → List String
  | [] => []
  | x :: xs => if x ∈ seen then dedupGo seen xs else x :: dedupGo (x :: seen) xs

/-- Duplicate-free version of a string list. -/
def dedupStr (xs : List String) : List String := dedupGo [] xs

/-! ### Association lists

Python dictionaries (`self._locald`, `self._symobjs`, the `self_assignments`
dict of `visit_ClassDef`) are modelled as association lists with first-match
lookup and replace-or-append update. -/

/-- Python `d.get(k)`. -/
def alGet {α : Type} : List (String × α) → String → Option α
  | [], _ => none
  | (k, v) :: r, key => if k = key then some v else alGet r key

/-- Python `d[k] = v`. -/
def alSet {α : Type} : List (String × α) → String → α → List (String × α)
  | [], key, v => [(key, v)]
  | (k, w) :: r, key, v => if k = key then (key, v) :: r else (k, w) :: alSet r key v

/-- Python `list(d.keys())`. -/
def keysOf {α : Type} (d : List (String × α)) : List String := d.map (fun p => p.1)

/-! ### Abstract syntax trees

A reduced model of the Python `ast` node shapes that pycomplete.py
inspects.  Expression contexts distinguish `ast.Load` from `ast.Store`;
statement shapes cover exactly the constructors the two visitors branch on,
with `otherE`/`otherS` standing for every other node kind (which the
visitors treat uniformly).  `tryS` models `ast.TryExcept` with a single
bare handler, the only form the source ever builds. -/

inductive ECtx where
  | load
  | store

/-- Expression nodes: string/number literals, names, attribute access,
calls, list/tuple/dict displays and list comprehensions. -/
inductive Expr where
  | str (s : String)
  | num (n : Int)
  | name (id : String) (ctx : ECtx)
  | attribute (value : Expr) (attr : String) (ctx : ECtx)
  | call (func : Expr) (args : List Expr)
  | listE (elts : List Expr)
  | tupleE (elts : List Expr)
  | dictE (keys : List Expr) (values : List Expr)
  | listComp
  | otherE

/-- Statement nodes. -/
inductive Stmt where
  | exprStmt (value : Expr)
  | assign (targets : List Expr) (value : Expr)
  | functionDef (name : String) (body : List Stmt)
  | classDef (name : String) (bases : List Expr) (body : List Stmt)
  | importS (names : List String)
  | importFrom (module : Option String) (names : List String)
  | ifS (test : Expr) (body : List Stmt) (orelse : List Stmt)
  | tryS (body : List Stmt) (handlerBody : List Stmt) (orelse : List Stmt)
  | passS
  | otherS

/-- Statement-valued children of a node, in `ast` field order; used by the
tree walks.  Expression children carry no statements. -/
def stmtChildren : Stmt → List Stmt
  | .functionDef _ b => b
  | .classDef _ _ b => b
  | .ifS _ b o => b ++ o
  | .tryS b h o => b ++ h ++ o
  | _ => []

mutual

/-- Size of a statement, for termination of the tree walks. -/
def stmtSize : Stmt → Nat
  | .functionDef _ b => 1 + stmtListSize b
  | .classDef _ _ b => 1 + stmtListSize b
  | .ifS _ b o => 1 + stmtListSize b + stmtListSize o
  | .tryS b h o => 1 + stmtListSize b + stmtListSize h + stmtListSize o
  | _ => 1

/-- Size of a statement list. -/
def stmtListSize : List Stmt → Nat
  | [] => 0
  | s :: r => stmtSize s + stmtListSize r

end

/-! ### Modelled Python exceptions

Values of `PyErr` stand for the `Exception`-derived objects the source
raises and catches; `errMsg` is the `'%s' % ex` rendering the source uses
when it converts a caught exception into a result string. -/

inductive PyErr where
  | typeError (msg : String)
  | indexError
  | attributeError
  | exn (msg : String)

/-- Python `'%s' % ex` for the modelled exceptions. -/
def errMsg : PyErr → String
  | .typeError m => "invalid type: " ++ m
  | .indexError => "list index out of range"
  | .attributeError => "no attribute"
  | .exn m => m

/-- Whether an `Except` result is a normal return (no escaping exception). -/
def exceptIsOk {ε α : Type} : Except ε α → Bool
  | .ok _ => true
  | .error _ => false

/-! ### ImportExtractor

`ImportExtractor` overrides `visit_FunctionDef` and `visit_ClassDef` with
no-ops (so nothing below a function or class definition is visited) and in
`generic_visit` records every `ast.Import`/`ast.ImportFrom` node while
recursing into all other children; `get_import_code` then re-emits the
recorded nodes in collection (pre-order, i.e. source) order, wrapping each
one except `from __future__ import` forms in a `try`/`except: pass`
statement. -/

/-- Whether a statement is an `ast.Import` or `ast.ImportFrom` node. -/
def isImportStmt : Stmt → Bool
  | .importS _ => true
  | .importFrom _ _ => true
  | _ => false

mutual

/-- Import nodes recorded while visiting one statement: the visitor skips
function and class bodies, records import nodes, and recurses into every
other statement's children. -/
def collectStmt : Stmt → List Stmt
  | .functionDef _ _ => []
  | .classDef _ _ _ => []
  | .importS ns => [.importS ns]
  | .importFrom m ns => [.importFrom m ns]
  | .ifS _ b o => collectList b ++ collectList o
  | .tryS b h o => collectList b ++ collectList h ++ collectList o
  | _ => []

/-- Import nodes recorded over a statement list, in order. -/
def collectList : List Stmt → List Stmt
  | [] => []
  | s :: rest => collectStmt s ++ collectList rest

end

/-- Emission of one recorded import: a `from __future__ import` node is
kept verbatim, every other import is wrapped alone inside
`try: <import> / except: pass`. -/
def wrapImport (s : Stmt) : Stmt :=
  match s with
  | .importFrom (some "__future__") ns => .importFrom (some "__future__") ns
  | s => .tryS [s] [.passS] []

/-- Body of the module emitted by `ImportExtractor.get_import_code` (the
`compile` step is the identity in this model). -/
def getImportCode (body : List Stmt) : List Stmt :=
  (collectList body).map wrapImport

mutual

/-- Pre-order traversal of one statement pairing every descendant with a
flag telling whether it lies inside a function or class definition body.
This is the specification-side description of the tree: the claim about the
extractor is that it keeps exactly the import nodes whose flag is `false`,
in traversal order. -/
def preFlag (inDef : Bool) : Stmt → List (Bool × Stmt)
  | .functionDef n b => (inDef, .functionDef n b) :: preFlagList true b
  | .classDef n bs b => (inDef, .classDef n bs b) :: preFlagList true b
  | .ifS t b o => (inDef, .ifS t b o) :: (preFlagList inDef b ++ preFlagList inDef o)
  | .tryS b h o =>
    (inDef, .tryS b h o) :: (preFlagList inDef b ++ preFlagList inDef h ++ preFlagList inDef o)
  | s => [(inDef, s)]

/-- Pre-order traversal with flags over a statement list. -/
def preFlagList (inDef : Bool) : List Stmt → List (Bool × Stmt)
  | [] => []
  | s :: rest => preFlag inDef s ++ preFlagList inDef rest

end

/-! ### CodeRemover

`CodeRemover` guts function bodies, keeps only string-literal expression
statements, neutralizes assignment right-hand sides, hoists `self.attr`
assignments found anywhere under a class to class-level attribute
assignments, and drops every other statement.  The in-place `ast`
mutations of the source become value-level rewrites here; collection of a
class's `self` assignments happens on the original body, before the body
itself is transformed, as in the source. -/

/-- The class-name heuristic `re.match(r'^_?[A-Z][A-Za-z0-9]+$', name)`:
an optional underscore, an uppercase ASCII letter, then one or more ASCII
letters or digits. -/
def classNameRe (s : String) : Bool :=
  let cs := match s.data with
    | '_' :: rest => rest
    | cs => cs
  match cs with
  | c :: rest =>
    ('A' ≤ c && c ≤ 'Z') && !rest.isEmpty &&
      rest.all (fun d =>
        ('A' ≤ d && d ≤ 'Z') || ('a' ≤ d && d ≤ 'z') || ('0' ≤ d && d ≤ '9'))
  | [] => false

/-- Whether a statement is a bare string-literal expression (docstring
test: `isinstance(stmt, ast.Expr) and isinstance(stmt.value, ast.Str)`). -/
def isDocStringStmt : Stmt → Bool
  | .exprStmt (.str _) => true
  | _ => false

/-- `CodeRemover.visit_FunctionDef`: replace the body by its docstring (if
the first statement is one) followed by `pass`, or by `pass` alone.  The
source reads `node.body[1]` whenever the first statement is a docstring —
on a body consisting of only the docstring that access raises
`IndexError`, which this model returns as an error. -/
def visitFunctionDef (name : String) (body : List Stmt) : Except PyErr (Option Stmt) :=
  match body with
  | [] => .ok none
  | b0 :: rest =>
    if isDocStringStmt b0 then
      match rest with
      | [] => .error .indexError
      | _ :: _ => .ok (some (.functionDef name [b0, .passS]))
    else
      .ok (some (.functionDef name [.passS]))

/-- Value-neutralization core of `CodeRemover.replace_unsafe_value`,
applied to an assignment with the given (possibly already rewritten)
targets: literals kept, displays emptied, comprehensions emptied, calls to
class-shaped names or `open` turned into guarded bare references, anything
else replaced by the `None` placeholder.  The `open` branch is the
Python 3 arm of the source (`io.BufferedIOBase`). -/
def neutralizeValue (targets : List Expr) (v : Expr) : Stmt :=
  match v with
  | .str t => .assign targets (.str t)
  | .num n => .assign targets (.num n)
  | .listE _ => .assign targets (.listE [])
  | .tupleE _ => .assign targets (.tupleE [])
  | .dictE _ _ => .assign targets (.dictE [] [])
  | .listComp => .assign targets (.listE [])
  | .call (.name fid _) _ =>
    if fid = "open" then
      .tryS [.assign targets (.attribute (.name "io" .load) "BufferedIOBase" .load)] [.passS] []
    else if classNameRe fid then
      .tryS [.assign targets (.name fid .load)] [.passS] []
    else
      .assign targets (.name "None" .load)
  | .call (.attribute base attr actx) _ =>
    if classNameRe attr then
      .tryS [.assign targets (.attribute base attr actx)] [.passS] []
    else
      .assign targets (.name "None" .load)
  | .call _ _ => .assign targets (.name "None" .load)
  | _ => .assign targets (.name "None" .load)

/-- `CodeRemover.replace_unsafe_value`.  Without `replace_self` every
assignment is neutralized; with `replace_self` only single-target
assignments to `self.<attr>` (with the `self` name in `Load` context) are
kept, their `self` rewritten to the class name, and every other assignment
yields `None` (dropped). -/
def replaceUnsafeValue (targets : List Expr) (v : Expr) (replaceSelf : Option String) :
    Option Stmt :=
  match replaceSelf with
  | none => some (neutralizeValue targets v)
  | some cls =>
    match targets with
    | [.attribute (.name "self" .load) attr tctx] =>
      some (neutralizeValue [.attribute (.name cls .load) attr tctx] v)
    | _ => none

/-- Breadth-first walk over a statement queue, `ast.walk`: pop a node,
yield it, push its children at the back of the queue.  Since each step
removes exactly one node from the forest held by the queue, the walk
performs exactly `stmtListSize q` steps; the fuel argument makes the
recursion structural and is never exhausted when started at that size. -/
def walkBFSFuel : Nat → List Stmt → List Stmt
  | _, [] => []
  | 0, _ :: _ => []
  | n + 1, s :: q => s :: walkBFSFuel n (q ++ stmtChildren s)

/-- `ast.walk` on a statement queue. -/
def walkBFS (q : List Stmt) : List Stmt := walkBFSFuel (stmtListSize q) q

/-- The value field of a statement node, Python `stmt.value`; `none` models
the `AttributeError` raised when the node kind has no such field (in
particular `ast.TryExcept`). -/
def stmtValueField : Stmt → Option Expr
  | .assign _ v => some v
  | .exprStmt v => some v
  | _ => none

/-- The test `isinstance(x, ast.Name) and x.id == 'None'` used to decide
whether a stored assignment carries the bare placeholder. -/
def isPlaceholderName : Expr → Bool
  | .name id _ => id = "None"
  | _ => false

/-- One step of the `self_assignments` dictionary loop in
`CodeRemover.visit_ClassDef`: a walked `ast.Assign` child is neutralized in
`replace_self` mode; a produced statement is stored under its attribute
name unless an entry exists, in which case the source inspects
`old_assign.value` (raising `AttributeError` when the stored statement is
the guarded `TryExcept` form) and overwrites only a bare-`None` entry. -/
def collectStep (cls : String) (acc : List (String × Stmt)) (child : Stmt) :
    Except PyErr (List (String × Stmt)) :=
  match child with
  | .assign targets value =>
    match replaceUnsafeValue targets value (some cls) with
    | none => .ok acc
    | some newChild =>
      match targets with
      | [.attribute _ attr _] =>
        match alGet acc attr with
        | none => .ok (alSet acc attr newChild)
        | some oldAssign =>
          match stmtValueField oldAssign with
          | none => .error .attributeError
          | some oldVal =>
            if isPlaceholderName oldVal then .ok (alSet acc attr newChild) else .ok acc
      | _ => .ok acc
  | _ => .ok acc

/-- Fold of `collectStep` over the walked nodes. -/
def collectFold (cls : String) : List Stmt → List (String × Stmt) →
    Except PyErr (List (String × Stmt))
  | [], acc => .ok acc
  | child :: rest, acc =>
    match collectStep cls acc child with
    | .error e => .error e
    | .ok acc2 => collectFold cls rest acc2

/-- The `self_assignments` dictionary built by `visit_ClassDef` for one
class node: every `ast.Assign` reachable by `ast.walk` from the class node
is offered to the dictionary loop. -/
def classCollect (cls : String) (node : Stmt) : Except PyErr (List (String × Stmt)) :=
  collectFold cls (walkBFS [node]) []

mutual

/-- Transformation of a single statement by `CodeRemover`: the returned
pair is the replacement (or `none` when the statement is dropped) together
with the class-level `self` assignments gathered below it (the
`_class_assignments` accumulator of the source). -/
def transformStmt : Stmt → Except PyErr (Option Stmt × List Stmt)
  | .functionDef name body =>
    match visitFunctionDef name body with
    | .error e => .error e
    | .ok r => .ok (r, [])
  | .classDef name bases body =>
    match classCollect name (.classDef name bases body) with
    | .error e => .error e
    | .ok collected =>
      match transformList body with
      | .error e => .error e
      | .ok (body2, nested) =>
        .ok (some (.classDef name bases body2), collected.map (fun p => p.2) ++ nested)
  | .assign targets value => .ok (replaceUnsafeValue targets value none, [])
  | .exprStmt v =>
    .ok ((match v with | .str t => some (.exprStmt (.str t)) | _ => none), [])
  | _ => .ok (none, [])

/-- Transformation of a statement list by `CodeRemover`. -/
def transformList : List Stmt → Except PyErr (List Stmt × List Stmt)
  | [] => .ok ([], [])
  | s :: rest =>
    match transformStmt s with
    | .error e => .error e
    | .ok (r, acc) =>
      match transformList rest with
      | .error e => .error e
      | .ok (rs, acc2) =>
        .ok ((match r with | some t => t :: rs | none => rs), acc ++ acc2)

end

/-- `CodeRemover.get_transformed_code`: transform the module body, then
extend it with the collected class-level attribute assignments (appended
after the class definitions so leading-underscore names are not mangled).
Any exception raised while visiting — the `IndexError` of
`visit_FunctionDef` or the `AttributeError` of `visit_ClassDef` — escapes
to the caller, as in the source. -/
def getTransformedCode (body : List Stmt) : Except PyErr (List Stmt) :=
  match transformList body with
  | .error e => .error e
  | .ok (b2, assigns) => .ok (b2 ++ assigns)

/-! ### Runtime data and the ambient environment

Live Python objects are opaque tags; namespace dictionaries map names to
objects.  The behaviour of the Python runtime itself — `exec` of an import
statement string, `exec` of compiled code, `eval`, `__import__`, `dir`,
file reading, `ast.parse`, `pydoc` rendering, `inspect` helpers — is
supplied as an explicit environment of functions, so theorems about the
embedded control flow quantify over every possible runtime behaviour. -/

/-- Opaque live Python object. -/
abbrev Obj := String

/-- Namespace dictionary (`self._globald`, `self._locald`, `self._symobjs`). -/
abbrev Dict := List (String × Obj)

/-- Outcome of `exec(stmt, globald, locald)` on one import statement
string: normal completion, a raised `TypeError`, or any other raised
`Exception`; each outcome carries the dictionaries as mutated up to that
point. -/
inductive ExecResult where
  | ok (g l : Dict)
  | typeErr (g l : Dict)
  | exn (g l : Dict)

/-- Outcome of `exec(code, globald, locald)` on a compiled code object:
the mutated dictionaries, or a raised exception (rendered via `'%s' % ex`
by the callers) together with the dictionaries as mutated so far. -/
inductive ExecCodeResult where
  | ok (g l : Dict)
  | err (msg : String) (g l : Dict)

/-- Outcome of `eval(s, globald, locald)` as distinguished by
`_get_symbol_object`: a value, or one of the three exception kinds it
catches. -/
inductive EvalResult where
  | ok (o : Obj)
  | nameError
  | attrError
  | syntaxError

/-- The ambient Python runtime. -/
structure Env where
  execStmt : String → Dict → Dict → ExecResult
  readFile : String → Except String String
  parseAst : String → Except String (List Stmt)
  execCode : List Stmt → Dict → Dict → ExecCodeResult
  evalStr : String → Dict → Dict → EvalResult
  importMod : String → Option Obj
  dirOf : Obj → List String
  renderHelp : Obj ⊕ String → Except PyErr String
  isNumOrStr : Obj → Bool
  getdoc : Obj → Option String
  renderSignature : Option Obj → Except PyErr String
  renderLocation : Obj → Except PyErr (Option (String × Nat))

/-- The Python keyword list, `keyword.kwlist`. -/
def pyKeywordList : List String :=
  ["False", "None", "True", "and", "as", "assert", "break", "class", "continue",
   "def", "del", "elif", "else", "except", "finally", "for", "from", "global",
   "if", "in", "is", "lambda", "nonlocal", "not", "or", "pass", "raise",
   "return", "try", "while", "with", "yield"]

/-- `keyword.iskeyword(s)`. -/
def isKeyword (s : String) : Bool := pyKeywordList.contains s

/-- A representative model of `dir(builtins)` as used by
`update_with_builtins`. -/
def pyBuiltinNames : List String :=
  ["abs", "all", "any", "bool", "dict", "dir", "enumerate", "eval", "float",
   "getattr", "hasattr", "help", "id", "int", "isinstance", "len", "list",
   "map", "max", "min", "object", "open", "print", "range", "repr", "set",
   "sorted", "str", "sum", "tuple", "type", "zip"]

/-! ### The document context

`PyCompleteDocument` state.  The source aliases `self._globald` to the
module's own `globals()` dictionary; in this per-context operational model
the global dictionary is threaded alongside the context (the aliasing
itself is studied separately below with an explicit reference heap). -/

/-- Mutable state of one `PyCompleteDocument` except the global
dictionary, which is threaded separately. -/
structure Doc where
  fname : Option String
  imports : Option (List String)
  locald : Dict
  symnames : List String
  symobjs : Dict
  parseSourceCalled : Bool

/-- A fresh context, `PyCompleteDocument.__init__`. -/
def newDoc (fname : Option String) : Doc :=
  { fname := fname, imports := none, locald := [], symnames := [],
    symobjs := [], parseSourceCalled := false }

/-- The `for stmt in imports` loop of `_import_modules`: `exec` each
statement, re-raise a `TypeError` as `TypeError('invalid type: ...')`,
silently continue past any other `Exception`. -/
def importLoop (env : Env) : List String → Dict → Dict → Option PyErr × Dict × Dict
  | [], g, l => (none, g, l)
  | stmt :: rest, g, l =>
    match env.execStmt stmt g l with
    | .ok g2 l2 => importLoop env rest g2 l2
    | .typeErr g2 l2 => (some (.typeError stmt), g2, l2)
    | .exn g2 l2 => importLoop env rest g2 l2

/-- `PyCompleteDocument.parse_source`.  The result triple: the returned value
(`none` for success, an error string for a reported failure, or an
uncaught escaping exception), the final global dictionary, and the final
context.  The `os.chdir` side effect carries no state in this model. -/
def parseSource (env : Env) (g : Dict) (d : Doc) (onlyReload : Bool) :
    Except PyErr (Option String) × Dict × Doc :=
  if onlyReload && !d.parseSourceCalled then (.ok none, g, d)
  else
    let d1 := { d with parseSourceCalled := true }
    match d1.fname with
    | none => (.ok none, g, d1)
    | some fname =>
      match env.readFile fname with
      | .error ex => (.ok (some ex), g, d1)
      | .ok src =>
        match env.parseAst src with
        | .error ex => (.ok (some ex), g, d1)
        | .ok node =>
          let importCode := getImportCode node
          match env.execCode importCode g [] with
          | .err ex _ _ =>
            (.ok (some ex), g, d1)
          | .ok g2 l2 =>
            let d2 := { d1 with locald := l2, symnames := [], symobjs := [] }
            match getTransformedCode node with
            | .error e => (.error e, g2, d2)
            | .ok reduced =>
              match env.execCode reduced g2 l2 with
              | .err ex ge le => (.ok (some ex), ge, { d2 with locald := le })
              | .ok g3 l3 => (.ok none, g3, { d2 with locald := l3 })

/-- `PyCompleteDocument._import_modules`.  With no import list: parse the
source once, then reuse cached state.  With a list equal to the cached one:
no-op.  Otherwise: clear the local namespace and both caches, run the loop
over the statements (whose `TypeError` escapes), and store the new list
only after the loop completes. -/
def importModules (env : Env) (g : Dict) (d : Doc) (imports : Option (List String)) :
    Except PyErr Unit × Dict × Doc :=
  match imports with
  | none =>
    if d.parseSourceCalled then (.ok (), g, d)
    else
      match parseSource env g d false with
      | (.error e, g2, d2) => (.error e, g2, d2)
      | (.ok _, g2, d2) => (.ok (), g2, d2)
  | some l =>
    if d.imports = some l then (.ok (), g, d)
    else
      let d2 := { d with locald := [], symnames := [], symobjs := [] }
      match importLoop env l g [] with
      | (some e, g2, l2) => (.error e, g2, { d2 with locald := l2 })
      | (none, g2, l2) => (.ok (), g2, { d2 with locald := l2, imports := some l })

/-- `PyCompleteDocument._collect_symbol_names`: when the cache is empty,
collect keywords, local and global names and builtins, deduplicate and
sort. -/
def collectSymbolNames (g : Dict) (d : Doc) : Doc :=
  if d.symnames.isEmpty then
    { d with symnames :=
        sortStrings (dedupStr (pyKeywordList ++ keysOf d.locald ++ keysOf g ++ pyBuiltinNames)) }
  else d

/-- `PyCompleteDocument._get_symbol_object`: consult the symbol cache,
else `eval` the name, falling back to a module import on `NameError`
(binding the module into the local namespace) or on `AttributeError`
(without binding), and swallowing a `SyntaxError`; a found object is
cached.  Returns the object with the updated local namespace and cache. -/
def getSymbolObject (env : Env) (g l : Dict) (so : Dict) (s : String) :
    Option Obj × Dict × Dict :=
  match alGet so s with
  | some sym => (some sym, l, so)
  | none =>
    let step : Option Obj × Dict :=
      match env.evalStr s g l with
      | .ok o => (some o, l)
      | .nameError =>
        match env.importMod s with
        | some m => (some m, alSet l s m)
        | none => (none, l)
      | .attrError =>
        match env.importMod s with
        | some m => (some m, l)
        | none => (none, l)
      | .syntaxError => (none, l)
    match step with
    | (some o, l2) => (some o, l2, alSet so s o)
    | (none, l2) => (none, l2, so)

/-- The prefix loop of `_load_symbol`: for each dotted prefix (empty ones
skipped), look the prefix up; a found object becomes the current symbol; a
missing one under `strict` returns `none` at once, otherwise the loop
carries on with the previous symbol. -/
def loadLoop (env : Env) (g : Dict) (strict : Bool) :
    List String → Option Obj → Dict → Dict → Option Obj × Dict × Dict
  | [], sym, l, so => (sym, l, so)
  | p :: rest, sym, l, so =>
    if p = "" then loadLoop env g strict rest sym l so
    else
      match getSymbolObject env g l so p with
      | (some o, l2, so2) => loadLoop env g strict rest (some o) l2 so2
      | (none, l2, so2) =>
        if strict then (none, l2, so2)
        else loadLoop env g strict rest sym l2 so2

/-- The dotted prefixes `'.'.join(dots[:i])` for `i = 1 .. len(dots)`. -/
def prefixStrings (dots : List String) : List String :=
  (List.range dots.length).map (fun i => joinDots (dots.take (i + 1)))

/-- `PyCompleteDocument._load_symbol`. -/
def loadSymbol (env : Env) (g l : Dict) (so : Dict) (s : String) (strict : Bool) :
    Option Obj × Dict × Dict :=
  match alGet so s with
  | some sym => (some sym, l, so)
  | none =>
    let dots := splitDots s
    if s = "" ∨ dots.length = 1 then getSymbolObject env g l so s
    else loadLoop env g strict (prefixStrings dots) none l so

/-- `PyCompleteDocument.get_all_completions`: apply imports (whose
`TypeError` escapes uncaught), then with no dot filter the collected
symbol names, and with a dot resolve the part before the last dot strictly
and filter that object's member names. -/
def getAllCompletions (env : Env) (g : Dict) (d : Doc) (s : String)
    (imports : Option (List String)) : Except PyErr (List String) × Dict × Doc :=
  match importModules env g d imports with
  | (.error e, g2, d2) => (.error e, g2, d2)
  | (.ok _, g2, d2) =>
    match lastIdxOf s.data '.' with
    | none =>
      let d3 := collectSymbolNames g2 d2
      if s = "" then (.ok d3.symnames, g2, d3)
      else (.ok (d3.symnames.filter (fun k => strStartsWith k s)), g2, d3)
    | some pos =>
      let r := loadSymbol env g2 d2.locald d2.symobjs (charTake s pos) true
      let d3 := { d2 with locald := r.2.1, symobjs := r.2.2 }
      match r.1 with
      | some o =>
        let suffix := charDrop s (pos + 1)
        (.ok ((env.dirOf o).filter (fun k => strStartsWith k suffix)), g2, d3)
      | none => (.ok [], g2, d3)

/-- Result type of `complete`: Python returns `''`, `None`, or a list. -/
inductive CResult where
  | noneR
  | strR (s : String)
  | listR (xs : List String)

/-- `PyCompleteDocument.complete`. -/
def complete (env : Env) (g : Dict) (d : Doc) (s : String)
    (imports : Option (List String)) : Except PyErr CResult × Dict × Doc :=
  if s = "" then (.ok (.strR ""), g, d)
  else
    match getAllCompletions env g d s imports with
    | (.error e, g2, d2) => (.error e, g2, d2)
    | (.ok cs, g2, d2) =>
      if cs.length = 0 then (.ok .noneR, g2, d2)
      else
        let dots := splitDots s
        let pre := lcpAll cs
        let typed := dots.getLastD ""
        if cs.length = 1 ∨ strLen typed < strLen pre then
          (.ok (.listR [charDrop pre (strLen typed)]), g2, d2)
        else (.ok (.listR cs), g2, d2)

/-- Shared prelude of the lookup operations: `_import_modules` followed by
`_load_symbol`; an exception from the import step escapes to the caller of
this helper, which each operation then catches or propagates as the source
does. -/
def importThenLoad (env : Env) (g : Dict) (d : Doc) (imports : Option (List String))
    (s : String) (strict : Bool) : Except PyErr (Option Obj) × Dict × Doc :=
  match importModules env g d imports with
  | (.error e, g2, d2) => (.error e, g2, d2)
  | (.ok _, g2, d2) =>
    let r := loadSymbol env g2 d2.locald d2.symobjs s strict
    (.ok r.1, g2, { d2 with locald := r.2.1, symobjs := r.2.2 })

/-- `PyCompleteDocument._get_help`: empty input yields `''`; the literal
`pydoc.help` is remapped to `pydoc.Helper`; for a keyword the bare string
is rendered; otherwise imports and best-effort resolution run inside a
`try` whose failure is returned as the exception's message, and the
resolved object (or the bare string when nothing resolved) is rendered —
an exception from rendering escapes this helper. -/
def getHelpInner (env : Env) (g : Dict) (d : Doc) (s : String)
    (imports : Option (List String)) : Except PyErr String × Dict × Doc :=
  if s = "" then (.ok "", g, d)
  else
    let s2 := if s = "pydoc.help" then "pydoc.Helper" else s
    if isKeyword s2 then
      match env.renderHelp (Sum.inr s2) with
      | .ok t => (.ok t, g, d)
      | .error e => (.error e, g, d)
    else
      match importThenLoad env g d imports s2 false with
      | (.error e, g2, d2) => (.ok (errMsg e), g2, d2)
      | (.ok obj, g2, d2) =>
        let target : Obj ⊕ String :=
          match obj with
          | some o => Sum.inl o
          | none => Sum.inr s2
        match env.renderHelp target with
        | .ok t => (.ok t, g2, d2)
        | .error e => (.error e, g2, d2)

/-- `PyCompleteDocument.help`: `_get_help` with every `Exception` caught
and rendered as the result string. -/
def helpOp (env : Env) (g : Dict) (d : Doc) (s : String)
    (imports : Option (List String)) : Except PyErr String × Dict × Doc :=
  match getHelpInner env g d s imports with
  | (.ok t, g2, d2) => (.ok t, g2, d2)
  | (.error e, g2, d2) => (.ok (errMsg e), g2, d2)

/-- `PyCompleteDocument.get_docstring`: for a non-keyword, imports and a
strict resolution run inside a bare `try`/`except: pass`; a resolved
object that is not a plain number or string contributes its documentation
string; every failure path yields `''`. -/
def getDocstringOp (env : Env) (g : Dict) (d : Doc) (s : String)
    (imports : Option (List String)) : Except PyErr String × Dict × Doc :=
  if s = "" ∨ isKeyword s then (.ok "", g, d)
  else
    match importThenLoad env g d imports s true with
    | (.error _, g2, d2) => (.ok "", g2, d2)
    | (.ok obj, g2, d2) =>
      let doc :=
        match obj with
        | some o => if env.isNumOrStr o then "" else (env.getdoc o).getD ""
        | none => ""
      (.ok doc, g2, d2)

/-- `PyCompleteDocument.get_signature`: empty or keyword input yields
`''`; only imports and best-effort resolution run inside a `try` whose
failure is returned as the exception message.  The constructor/method
unwrapping, `inspect.getargspec` formatting and first-doc-line fallback
of the source are the environment's `renderSignature` — that region runs
after the handler ends, so it may itself raise (under Python 3,
`inspect.getargspec` raises `ValueError` for any function with
keyword-only parameters or annotations), and such an exception escapes
`get_signature` uncaught. -/
def getSignatureOp (env : Env) (g : Dict) (d : Doc) (s : String)
    (imports : Option (List String)) : Except PyErr String × Dict × Doc :=
  if s = "" ∨ isKeyword s then (.ok "", g, d)
  else
    match importThenLoad env g d imports s false with
    | (.error e, g2, d2) => (.ok (errMsg e), g2, d2)
    | (.ok obj, g2, d2) =>
      match env.renderSignature obj with
      | .ok sig => (.ok sig, g2, d2)
      | .error e => (.error e, g2, d2)

/-- `PyCompleteDocument.get_location`: empty or keyword input yields no
result; imports, best-effort resolution and the source-location
introspection all run inside a bare `try` whose failure yields no result. -/
def getLocationOp (env : Env) (g : Dict) (d : Doc) (s : String)
    (imports : Option (List String)) : Except PyErr (Option (String × Nat)) × Dict × Doc :=
  if s = "" ∨ isKeyword s then (.ok none, g, d)
  else
    match importThenLoad env g d imports s false with
    | (.error _, g2, d2) => (.ok none, g2, d2)
    | (.ok obj, g2, d2) =>
      match obj with
      | none => (.ok none, g2, d2)
      | some o =>
        match env.renderLocation o with
        | .error _ => (.ok none, g2, d2)
        | .ok loc => (.ok loc, g2, d2)

/-! ### The session registry and public functions -/

/-- Process-wide state: the module's global dictionary and the
`_instances` registry keyed by the caller-supplied path. -/
structure Session where
  g : Dict
  instances : List (Option String × Doc)

/-- `PyCompleteDocument.instance`: return the registered context for the
path or create and register a fresh one. -/
def instanceFor (ses : Session) (fname : Option String) : Doc × Session :=
  match ses.instances.find? (fun p => p.1 == fname) with
  | some p => (p.2, ses)
  | none =>
    let d := newDoc fname
    (d, { ses with instances := ses.instances ++ [(fname, d)] })

/-- Store back the (mutated) context for a path. -/
def storeInstance (ses : Session) (fname : Option String) (d : Doc) : Session :=
  { ses with instances := ses.instances.map (fun p => if p.1 == fname then (fname, d) else p) }

/-- Public `get_all_completions(s, fname, imports)`. -/
def pubGetAllCompletions (env : Env) (ses : Session) (s : String) (fname : Option String)
    (imports : Option (List String)) : Except PyErr (List String) × Session :=
  let (d, ses1) := instanceFor ses fname
  match getAllCompletions env ses1.g d s imports with
  | (r, g2, d2) => (r, storeInstance { ses1 with g := g2 } fname d2)

/-- Public `pycomplete(s, fname, imports)`. -/
def pubPycomplete (env : Env) (ses : Session) (s : String) (fname : Option String)
    (imports : Option (List String)) : Except PyErr CResult × Session :=
  let (d, ses1) := instanceFor ses fname
  match complete env ses1.g d s imports with
  | (r, g2, d2) => (r, storeInstance { ses1 with g := g2 } fname d2)

/-- Public `pysignature(s, fname, imports)`. -/
def pubPysignature (env : Env) (ses : Session) (s : String) (fname : Option String)
    (imports : Option (List String)) : Except PyErr String × Session :=
  let (d, ses1) := instanceFor ses fname
  match getSignatureOp env ses1.g d s imports with
  | (r, g2, d2) => (r, storeInstance { ses1 with g := g2 } fname d2)

/-! ### Specification-side formulations

These definitions follow the specification's wording and are compared with
the embedded source functions by the theorems below. -/

/-- Specification wording for `complete` on a non-empty expression, as a
function of the candidate list returned by `get_all_completions`: no
candidate yields the not-found sentinel; a unique candidate, or a common
prefix strictly longer than the typed final dotted segment, yields the
one-element list holding the common prefix with the typed segment's length
removed from the front; anything else yields the raw candidate list. -/
def completeSpecResult (s : String) (cs : List String) : CResult :=
  if cs.length = 0 then .noneR
  else
    let typed := (splitDots s).getLastD ""
    let pre := lcpAll cs
    if cs.length = 1 ∨ strLen typed < strLen pre then .listR [charDrop pre (strLen typed)]
    else .listR cs

/-- Specification wording for the import extractor's selection: the import
statements whose pre-order position lies outside every function and class
definition body, in pre-order (source) order. -/
def specTopImports (body : List Stmt) : List Stmt :=
  ((preFlagList false body).filter (fun p => !p.1 && isImportStmt p.2)).map (fun p => p.2)

/-- A runtime in which resolving a single name has the pure behaviour `f`
(a successful `eval`, or a `NameError` with no importable module) and no
other runtime feature is available; used to state the `_load_symbol`
prefix-walk properties against an arbitrary resolvability pattern. -/
def pureEnv (f : String → Option Obj) : Env where
  execStmt := fun _ g l => .ok g l
  readFile := fun _ => .error "unavailable"
  parseAst := fun _ => .error "unavailable"
  execCode := fun _ g l => .ok g l
  evalStr := fun s _ _ =>
    match f s with
    | some o => .ok o
    | none => .nameError
  importMod := fun _ => none
  dirOf := fun _ => []
  renderHelp := fun _ => .ok ""
  isNumOrStr := fun _ => false
  getdoc := fun _ => none
  renderSignature := fun _ => .ok ""
  renderLocation := fun _ => .ok none

/-- Pure mirror of the `_load_symbol` prefix loop under `pureEnv f`. -/
def pureLoop (f : String → Option Obj) (strict : Bool) :
    List String → Option Obj → Option Obj
  | [], sym => sym
  | p :: rest, sym =>
    if p = "" then pureLoop f strict rest sym
    else
      match f p with
      | some o => pureLoop f strict rest (some o)
      | none => if strict then none else pureLoop f strict rest sym

/-- The object of the longest resolvable prefix: walking the prefixes in
increasing order (empty ones skipped), each resolvable prefix replaces the
accumulator, so the final value belongs to the last — longest — prefix
that resolved, starting from `acc`. -/
def lastResolved (f : String → Option Obj) : List String → Option Obj → Option Obj
  | [], acc => acc
  | p :: rest, acc =>
    lastResolved f rest
      (if p = "" then acc
       else
         match f p with
         | some o => some o
         | none => acc)

/-- Whether every non-empty prefix in the list resolves under `f`. -/
def allResolve (f : String → Option Obj) (ps : List String) : Bool :=
  ps.all (fun p => p = "" || (f p).isSome)

/-! ### Aliasing of the module's own global dictionary

`PyCompleteDocument.__init__` executes `self._globald = globals()`: every
context stores a reference to the one dictionary object holding the
completion module's own top-level names.  This model makes the reference
explicit: dictionary objects live in a heap indexed by references, and the
module's `globals()` dictionary is the object at `moduleGlobalsRef`. -/

/-- The fixed reference to the completion module's `globals()` object. -/
def moduleGlobalsRef : Nat := 0

/-- A heap of dictionary objects, indexed by reference. -/
structure GHeap where
  dicts : List Dict

/-- Dereference a dictionary. -/
def GHeap.read (h : GHeap) (r : Nat) : Dict := h.dicts.getD r []

/-- Bind `k` to `v` in the dictionary object behind `r`. -/
def GHeap.write (h : GHeap) (r : Nat) (k : String) (v : Obj) : GHeap :=
  { dicts := h.dicts.set r (alSet (h.dicts.getD r []) k v) }

/-- The names bound at top level of the completion module itself (imports,
version shims, the three classes and the public functions), which populate
its `globals()` dictionary. -/
def moduleTopLevelNames : List String :=
  ["sys", "types", "inspect", "keyword", "os", "pydoc", "ast", "re",
   "StringIO", "is_num_or_str", "is_class_type", "get_unbound_function",
   "get_method_function", "get_function_code", "update_with_builtins",
   "ImportExtractor", "CodeRemover", "PyCompleteDocument",
   "get_all_completions", "pycomplete", "pyhelp", "pydocstring",
   "pysignature", "pylocation", "parse_source"]

/-- The module's `globals()` dictionary at load time (objects tagged by
their own names). -/
def initialModuleGlobals : Dict := moduleTopLevelNames.map (fun n => (n, n))

/-- The heap at module load: a single dictionary object, the module's
`globals()`. -/
def initHeap : GHeap := { dicts := [initialModuleGlobals] }

/-- A document context as far as global-namespace aliasing is concerned:
it stores a reference to its global dictionary, not a dictionary value. -/
structure DocH where
  fname : Option String
  globaldRef : Nat
  locald : Dict
  symnames : List String

/-- `PyCompleteDocument.__init__` in the reference model: the assignment
`self._globald = globals()` stores the module reference, never a fresh
dictionary. -/
def DocH.init (fname : Option String) : DocH :=
  { fname := fname, globaldRef := moduleGlobalsRef, locald := [], symnames := [] }

/-- `_collect_symbol_names` in the reference model: keywords, local names,
the names of the dictionary behind the context's global reference, and
builtins, deduplicated and sorted. -/
def collectSymbolNamesH (h : GHeap) (d : DocH) : List String :=
  sortStrings (dedupStr
    (pyKeywordList ++ keysOf d.locald ++ keysOf (GHeap.read h d.globaldRef) ++ pyBuiltinNames))

/-! ### Concrete runtimes used by closed evaluations -/

/-- A runtime in which executing any import statement raises `TypeError`,
modelling a malformed (non-string) entry in a caller-supplied import
list. -/
def envBad : Env where
  execStmt := fun _ g l => .typeErr g l
  readFile := fun _ => .error "unavailable"
  parseAst := fun _ => .error "unavailable"
  execCode := fun _ g l => .ok g l
  evalStr := fun _ _ _ => .nameError
  importMod := fun _ => none
  dirOf := fun _ => []
  renderHelp := fun _ => .ok ""
  isNumOrStr := fun _ => false
  getdoc := fun _ => none
  renderSignature := fun _ => .ok ""
  renderLocation := fun _ => .ok none

/-- A runtime that reads a one-function module whose entire function body
is a docstring, and in which executing code never fails. -/
def envDocOnly : Env where
  execStmt := fun _ g l => .ok g l
  readFile := fun _ => .ok "def f: doc"
  parseAst := fun _ => .ok [.functionDef "f" [.exprStmt (.str "doc")]]
  execCode := fun _ g l => .ok g l
  evalStr := fun _ _ _ => .nameError
  importMod := fun _ => none
  dirOf := fun _ => []
  renderHelp := fun _ => .ok ""
  isNumOrStr := fun _ => false
  getdoc := fun _ => none
  renderSignature := fun _ => .ok ""
  renderLocation := fun _ => .ok none

/-- A runtime whose source parses to a single import statement and in
which executing the extracted import code raises. -/
def envImpFail : Env where
  execStmt := fun _ g l => .ok g l
  readFile := fun _ => .ok "one import"
  parseAst := fun _ => .ok [.importS ["m"]]
  execCode := fun _ g l => .err "import step failed" g l
  evalStr := fun _ _ _ => .nameError
  importMod := fun _ => none
  dirOf := fun _ => []
  renderHelp := fun _ => .ok ""
  isNumOrStr := fun _ => false
  getdoc := fun _ => none
  renderSignature := fun _ => .ok ""
  renderLocation := fun _ => .ok none

/-- A runtime whose source parses to a single import statement, in which
executing the (non-empty) extracted import code succeeds and executing the
(empty) reduced module raises. -/
def envRedFail : Env where
  execStmt := fun _ g l => .ok g l
  readFile := fun _ => .ok "one import"
  parseAst := fun _ => .ok [.importS ["m"]]
  execCode := fun c g l => if c.isEmpty then .err "reduced step failed" g l else .ok g l
  evalStr := fun _ _ _ => .nameError
  importMod := fun _ => none
  dirOf := fun _ => []
  renderHelp := fun _ => .ok ""
  isNumOrStr := fun _ => false
  getdoc := fun _ => none
  renderSignature := fun _ => .ok ""
  renderLocation := fun _ => .ok none

/-- The process state at module load: empty registry, the module's global
dictionary. -/
def sesInit : Session := { g := initialModuleGlobals, instances := [] }

/-- A runtime in which formatting a signature raises, as
`inspect.getargspec` does under Python 3 for any function with
keyword-only parameters or annotations. -/
def envSigFail : Env where
  execStmt := fun _ g l => .ok g l
  readFile := fun _ => .error "unavailable"
  parseAst := fun _ => .error "unavailable"
  execCode := fun _ g l => .ok g l
  evalStr := fun _ _ _ => .nameError
  importMod := fun _ => none
  dirOf := fun _ => []
  renderHelp := fun _ => .ok ""
  isNumOrStr := fun _ => false
  getdoc := fun _ => none
  renderSignature := fun _ =>
    .error (.exn "Function has keyword-only arguments or annotations")
  renderLocation := fun _ => .ok none

/-- A concrete resolvability pattern for witnesses: the names `a` and
`a.b` resolve, everything else does not. -/
def wf5 : String → Option Obj :=
  fun p => if p = "a" then some "oa" else if p = "a.b" then some "ob" else none

/-! ## Theorems -/

/-- Lookup after update at the same key. -/
theorem alGet_alSet_self {α : Type} (m : List (String × α)) (k : String) (v : α) :
    alGet (alSet m k v) k = some v := by
  induction m with
  | nil => simp [alSet, alGet]
  | cons p r ih =>
    by_cases h : p.1 = k
    · simp [alSet, h, alGet]
    · simp [alSet, h, alGet, ih]

/-- Lookup after update at a different key. -/
theorem alGet_alSet_ne {α : Type} (m : List (String × α)) (k key : String) (v : α)
    (h : ¬ k = key) : alGet (alSet m key v) k = alGet m k := by
  have hk : ¬ key = k := fun hh => h hh.symm
  induction m with
  | nil => simp [alSet, alGet, hk]
  | cons p r ih =>
    by_cases h1 : p.1 = key
    · simp [alSet, h1, alGet, hk]
    · simp [alSet, h1, alGet, ih]

/-- Every statement has positive size. -/
theorem stmtSize_pos (s : Stmt) : 1 ≤ stmtSize s := by
  cases s <;> simp only [stmtSize] <;> omega

/-- Claim C1, counterexample.  The claim says no exception escapes any
public operation, in particular not the `TypeError` raised while applying
a malformed import statement and not an exception raised while building
the reduced module in `parse_source`.  Three escapes refute it: the
public `get_all_completions` calls `_import_modules` outside any handler,
so the re-raised `TypeError` propagates to the caller; `parse_source`
calls `get_transformed_code` outside its handler, so the `IndexError`
raised while reducing a docstring-only function propagates; and
`pysignature`'s handler ends before the signature-formatting region, so
the `ValueError` that `inspect.getargspec` raises there (under Python 3,
for any function with keyword-only parameters or annotations) propagates
as well. -/
theorem typeError_escapes_get_all_completions :
    (pubGetAllCompletions envBad sesInit "x" none (some ["1"])).1
      = .error (.typeError "1") ∧
    (parseSource envDocOnly initialModuleGlobals (newDoc (some "t.py")) false).1
      = .error .indexError ∧
    (pubPysignature envSigFail sesInit "f" none none).1
      = .error (.exn "Function has keyword-only arguments or annotations") :=
  ⟨rfl, rfl, rfl⟩

/-- Claim C1, amended.  The three lookup operations whose bodies are
entirely covered by handlers — `help`, `get_docstring`, `get_location` —
are total: whatever the runtime does and whatever state the context is in,
each returns a value and no modelled exception escapes.  (As the
counterexample shows, the remaining operations are not total:
`get_all_completions`/`pycomplete` propagate the `TypeError` of the step
applying imports, `parse_source` propagates exceptions raised while building
the reduced module, and `pysignature` propagates exceptions raised by the
signature-formatting region that runs after its handler ends.) -/
theorem lookup_operations_total (env : Env) (g : Dict) (d : Doc) (s : String)
    (imports : Option (List String)) :
    exceptIsOk (helpOp env g d s imports).1 = true ∧
    exceptIsOk (getDocstringOp env g d s imports).1 = true ∧
    exceptIsOk (getLocationOp env g d s imports).1 = true := by
  refine ⟨?_, ?_, ?_⟩
  · rcases hh : getHelpInner env g d s imports with ⟨r, g2, d2⟩
    cases r <;> simp [helpOp, hh, exceptIsOk]
  · by_cases hs : s = "" ∨ isKeyword s
    · simp [getDocstringOp, hs, exceptIsOk]
    · rcases hh : importThenLoad env g d imports s true with ⟨r, g2, d2⟩
      cases r <;> simp [getDocstringOp, hs, hh, exceptIsOk]
  · by_cases hs : s = "" ∨ isKeyword s
    · simp [getLocationOp, hs, exceptIsOk]
    · rcases hh : importThenLoad env g d imports s false with ⟨r, g2, d2⟩
      rcases r with e | obj
      · simp [getLocationOp, hs, hh, exceptIsOk]
      · rcases obj with _ | o
        · simp [getLocationOp, hs, hh, exceptIsOk]
        · rcases hr : env.renderLocation o with e | loc <;>
            simp [getLocationOp, hs, hh, hr, exceptIsOk]

/-- Claim C2.  The claim says the reducer succeeds on every well-formed
function definition with a non-empty body, including one whose entire body
is just the docstring, producing the docstring followed by `pass`.  The
code instead evaluates `node.body[1]` whenever the first statement is a
docstring, so a function whose body is only its docstring raises
`IndexError` (and the error escapes `get_transformed_code`); a body with a
docstring and at least one further statement is reduced as described. -/
theorem visit_functionDef_docstring_only_indexError :
    visitFunctionDef "f" [.exprStmt (.str "doc")] = .error .indexError ∧
    visitFunctionDef "g" [.exprStmt (.str "doc"), .otherS]
      = .ok (some (.functionDef "g" [.exprStmt (.str "doc"), .passS])) ∧
    getTransformedCode [.functionDef "f" [.exprStmt (.str "doc")]] = .error .indexError :=
  ⟨rfl, rfl, rfl⟩

/-- Claim C3.  In `parse_source`, when the execution of the extracted
guarded imports raises, the prior global and local namespaces are restored exactly
(the error description is returned and the symbol caches are left
untouched); when that step succeeds and executing the reduced module
raises, the error description is returned while the namespaces produced by
the import step (with any mutations of the failed reduced execution) are
retained rather than rolled back, `symnames` and `symobjs` having been
cleared before that execution. -/
theorem parse_source_rollback_and_retention (env : Env) (g : Dict) (d : Doc)
    (fname : String) (src : String) (node : List Stmt)
    (hf : d.fname = some fname)
    (hr : env.readFile fname = .ok src)
    (hp : env.parseAst src = .ok node) :
    (∀ ex ge le, env.execCode (getImportCode node) g [] = .err ex ge le →
      parseSource env g d false = (.ok (some ex), g, { d with parseSourceCalled := true })) ∧
    (∀ g2 l2 reduced ex2 ge2 le2,
      env.execCode (getImportCode node) g [] = .ok g2 l2 →
      getTransformedCode node = .ok reduced →
      env.execCode reduced g2 l2 = .err ex2 ge2 le2 →
      parseSource env g d false
        = (.ok (some ex2), ge2,
           { d with
             parseSourceCalled := true, locald := le2, symnames := [], symobjs := [] })) := by
  constructor
  · intro ex ge le hexec
    simp [parseSource, hf, hr, hp, hexec]
  · intro g2 l2 reduced ex2 ge2 le2 h1 h2 h3
    simp [parseSource, hf, hr, hp, h1, h2, h3]

/-- Witness for claim C3 at concrete runtimes: one whose import step
fails (the prior state is restored) and one whose reduced-module step
fails (the import-step state is retained with cleared caches). -/
theorem parse_source_rollback_and_retention_witness :
    ((newDoc (some "t.py")).fname = some "t.py") ∧
    parseSource envImpFail initialModuleGlobals (newDoc (some "t.py")) false
      = (.ok (some "import step failed"), initialModuleGlobals,
         { newDoc (some "t.py") with parseSourceCalled := true }) ∧
    parseSource envRedFail initialModuleGlobals (newDoc (some "t.py")) false
      = (.ok (some "reduced step failed"), initialModuleGlobals,
         { newDoc (some "t.py") with
           parseSourceCalled := true, locald := [], symnames := [], symobjs := [] }) :=
  ⟨rfl,
   (parse_source_rollback_and_retention envImpFail initialModuleGlobals
      (newDoc (some "t.py")) "t.py" "one import" [.importS ["m"]] rfl rfl rfl).1
     "import step failed" initialModuleGlobals [] rfl,
   (parse_source_rollback_and_retention envRedFail initialModuleGlobals
      (newDoc (some "t.py")) "t.py" "one import" [.importS ["m"]] rfl rfl rfl).2
     initialModuleGlobals [] [] "reduced step failed" initialModuleGlobals [] rfl rfl rfl⟩

/-- Claim C4.  `complete` on the empty expression returns the
empty-string result at once, leaving the state untouched (no import
evaluation); on a non-empty expression it propagates an escaping exception
of `get_all_completions` unchanged, and otherwise maps the candidate list
through the case analysis `completeSpecResult`: no candidate gives the
not-found sentinel, a unique candidate or a common prefix strictly longer
than the typed final dotted segment gives the one-element remainder list,
anything else gives the raw candidate list. -/
theorem complete_case_analysis (env : Env) (g : Dict) (d : Doc)
    (imports : Option (List String)) :
    complete env g d "" imports = (.ok (.strR ""), g, d) ∧
    ∀ s, ¬ s = "" →
      (∀ e g2 d2, getAllCompletions env g d s imports = (.error e, g2, d2) →
        complete env g d s imports = (.error e, g2, d2)) ∧
      (∀ cs g2 d2, getAllCompletions env g d s imports = (.ok cs, g2, d2) →
        complete env g d s imports = (.ok (completeSpecResult s cs), g2, d2)) := by
  refine ⟨by simp [complete], ?_⟩
  intro s hs
  constructor
  · intro e g2 d2 heq
    simp [complete, hs, heq]
  · intro cs g2 d2 heq
    simp only [complete, if_neg hs, heq, completeSpecResult]
    by_cases h0 : cs.length = 0
    · simp [h0]
    · simp only [if_neg h0]
      split <;> rfl

/-- Witness for claim C4: completing `ab` against the builtin names
yields the single candidate `abs` and hence the one-element remainder
list computed by `completeSpecResult`. -/
theorem complete_case_analysis_witness :
    (¬ "ab" = "") ∧
    complete (pureEnv (fun _ => none)) []
        { newDoc none with parseSourceCalled := true } "ab" none
      = (.ok (completeSpecResult "ab" ["abs"]), [],
         (getAllCompletions (pureEnv (fun _ => none)) []
           { newDoc none with parseSourceCalled := true } "ab" none).2.2) :=
  ⟨by decide,
   ((complete_case_analysis (pureEnv (fun _ => none)) []
      { newDoc none with parseSourceCalled := true } none).2 "ab" (by decide)).2
     ["abs"] [] _ (by rfl)⟩

/-- Evaluation of `_get_symbol_object` under the pure resolver runtime. -/
theorem getSymbolObject_pureEnv (f : String → Option Obj) (g l so : Dict) (p : String)
    (hc : alGet so p = none) :
    getSymbolObject (pureEnv f) g l so p
      = (f p, l, match f p with | some o => alSet so p o | none => so) := by
  cases hf : f p <;> simp [getSymbolObject, pureEnv, hc, hf]

/-- The `_load_symbol` prefix loop under the pure resolver runtime
computes the pure loop on the prefix list, provided the prefixes are
distinct and uncached. -/
theorem loadLoop_pureEnv (f : String → Option Obj) (g : Dict) (strict : Bool) :
    ∀ (ps : List String) (sym : Option Obj) (l so : Dict),
      ps.Nodup → (∀ p ∈ ps, alGet so p = none) →
      (loadLoop (pureEnv f) g strict ps sym l so).1 = pureLoop f strict ps sym := by
  intro ps
  induction ps with
  | nil => intro sym l so _ _; simp [loadLoop, pureLoop]
  | cons p rest ih =>
    intro sym l so hnd hun
    have hndr : rest.Nodup := (List.nodup_cons.mp hnd).2
    have hpn : p ∉ rest := (List.nodup_cons.mp hnd).1
    by_cases hp : p = ""
    · simp only [loadLoop, pureLoop, if_pos hp]
      exact ih sym l so hndr (fun q hq => hun q (List.mem_cons_of_mem _ hq))
    · have hc : alGet so p = none := hun p (List.mem_cons_self _ _)
      simp only [loadLoop, pureLoop, if_neg hp]
      rw [getSymbolObject_pureEnv f g l so p hc]
      cases hf : f p with
      | some o =>
        simp only [hf]
        exact ih (some o) l (alSet so p o) hndr
          (fun q hq => by
            rw [alGet_alSet_ne so q p o (fun he => hpn (he ▸ hq))]
            exact hun q (List.mem_cons_of_mem _ hq))
      | none =>
        cases strict with
        | true => simp [hf]
        | false =>
          simp only [hf]
          exact ih sym l so hndr (fun q hq => hun q (List.mem_cons_of_mem _ hq))

/-- The non-strict pure loop keeps the object of the last resolvable
prefix. -/
theorem pureLoop_false_eq (f : String → Option Obj) :
    ∀ (ps : List String) (acc : Option Obj),
      pureLoop f false ps acc = lastResolved f ps acc := by
  intro ps
  induction ps with
  | nil => intro acc; rfl
  | cons p rest ih =>
    intro acc
    by_cases hp : p = ""
    · simp [pureLoop, lastResolved, hp, ih]
    · cases hf : f p <;> simp [pureLoop, lastResolved, hp, hf, ih]

/-- The strict pure loop returns the final object only when every
non-empty prefix resolves, and nothing otherwise. -/
theorem pureLoop_true_eq (f : String → Option Obj) :
    ∀ (ps : List String) (acc : Option Obj),
      pureLoop f true ps acc
        = if allResolve f ps then lastResolved f ps acc else none := by
  intro ps
  induction ps with
  | nil => intro acc; simp [pureLoop, allResolve, lastResolved]
  | cons p rest ih =>
    intro acc
    by_cases hp : p = ""
    · simp [pureLoop, allResolve, lastResolved, hp, ih]
    · cases hf : f p with
      | some o => simp [pureLoop, allResolve, lastResolved, hp, hf, ih]
      | none => simp [pureLoop, allResolve, lastResolved, hp, hf]

/-- Claim C5.  For a multi-segment dotted path, `_load_symbol` with
`strict=true` returns nothing as soon as any non-empty prefix fails to
resolve (and the full path's object when every prefix resolves), while
with `strict=false` it returns the object of the longest prefix that did
resolve; a single-segment (or empty) path is handed directly to the
single-name resolver `_get_symbol_object` in both modes. -/
theorem load_symbol_strict_and_best_effort (f : String → Option Obj) (g l : Dict)
    (s : String)
    (hmulti : 2 ≤ (splitDots s).length)
    (hnd : (prefixStrings (splitDots s)).Nodup) :
    ((loadSymbol (pureEnv f) g l [] s true).1
      = (if allResolve f (prefixStrings (splitDots s)) then
          lastResolved f (prefixStrings (splitDots s)) none
        else none)) ∧
    ((loadSymbol (pureEnv f) g l [] s false).1
      = lastResolved f (prefixStrings (splitDots s)) none) ∧
    (∀ (env : Env) (g2 l2 so : Dict) (t : String) (b : Bool),
      (splitDots t).length = 1 →
      loadSymbol env g2 l2 so t b = getSymbolObject env g2 l2 so t) := by
  have hs : ¬ (s = "" ∨ (splitDots s).length = 1) := by
    rintro (rfl | hlen)
    · simp [splitDots, splitChars] at hmulti
    · omega
  have hunc : ∀ p ∈ prefixStrings (splitDots s), alGet ([] : Dict) p = none :=
    fun p _ => rfl
  refine ⟨?_, ?_, ?_⟩
  · simp only [loadSymbol, alGet, if_neg hs]
    rw [loadLoop_pureEnv f g true (prefixStrings (splitDots s)) none l [] hnd hunc]
    exact pureLoop_true_eq f _ none
  · simp only [loadSymbol, alGet, if_neg hs]
    rw [loadLoop_pureEnv f g false (prefixStrings (splitDots s)) none l [] hnd hunc]
    exact pureLoop_false_eq f _ none
  · intro env g2 l2 so t b hlen1
    cases hc : alGet so t with
    | some sym => simp [loadSymbol, getSymbolObject, hc]
    | none => simp [loadSymbol, hc, hlen1]

/-- Witness for claim C5 on the path `a.b`, fully resolvable under
`wf5`, and on the single-segment name `len`. -/
theorem load_symbol_strict_and_best_effort_witness :
    (2 ≤ (splitDots "a.b").length ∧ (prefixStrings (splitDots "a.b")).Nodup ∧
     (loadSymbol (pureEnv wf5) [] [] [] "a.b" true).1 = some "ob" ∧
     (loadSymbol (pureEnv wf5) [] [] [] "a.b" false).1 = some "ob") ∧
    ((splitDots "len").length = 1 ∧
     loadSymbol (pureEnv wf5) [] [] [] "len" true
       = getSymbolObject (pureEnv wf5) [] [] [] "len") :=
  ⟨⟨by decide, by decide,
    (load_symbol_strict_and_best_effort wf5 [] [] "a.b" (by decide) (by decide)).1.trans
      (by decide),
    (load_symbol_strict_and_best_effort wf5 [] [] "a.b" (by decide) (by decide)).2.1.trans
      (by decide)⟩,
   ⟨by decide,
    (load_symbol_strict_and_best_effort wf5 [] [] "a.b" (by decide) (by decide)).2.2
      (pureEnv wf5) [] [] [] "len" true (by decide)⟩⟩

/-- Claim C6.  The claim says a class body assigning the same
`self.<attr>` more than once always reduces to exactly one class-level
assignment, first write winning unless it was the bare placeholder.  When
the earlier-seen assignment was neutralized into a guarded `TryExcept`
statement (a class-shaped call such as `Foo()`), the dictionary loop's
`old_assign.value` access raises `AttributeError` instead, and the error
escapes the reducer: a method assigning `self.x = Foo()` and then
`self.x = 1` makes `get_transformed_code` raise. -/
theorem class_attr_conflict_attributeError :
    getTransformedCode
      [.classDef "C" []
        [.functionDef "m"
          [.assign [.attribute (.name "self" .load) "x" .store]
             (.call (.name "Foo" .load) []),
           .assign [.attribute (.name "self" .load) "x" .store] (.num 1)]]]
      = .error .attributeError := rfl

/-- Claim C7.  For an assignment whose right-hand side is a call to a bare
name matching the class-name heuristic, `replace_unsafe_value` replaces
the call by a bare reference to that name — never an instantiation —
wrapped in a `try`/`except: pass` guard; in `replace_self` mode the same
neutralization applies with `self` rewritten to the class name. -/
theorem classname_call_becomes_guarded_reference (targets : List Expr) (fid : String)
    (fctx : ECtx) (args : List Expr) (cls attr : String) (tctx : ECtx)
    (h : classNameRe fid = true) :
    replaceUnsafeValue targets (.call (.name fid fctx) args) none
      = some (.tryS [.assign targets (.name fid .load)] [.passS] []) ∧
    replaceUnsafeValue [.attribute (.name "self" .load) attr tctx]
        (.call (.name fid fctx) args) (some cls)
      = some (.tryS [.assign [.attribute (.name cls .load) attr tctx] (.name fid .load)]
          [.passS] []) := by
  have hopen : ¬ fid = "open" := by
    intro he; subst he; exact absurd h (by decide)
  constructor <;> simp [replaceUnsafeValue, neutralizeValue, hopen, h]

/-- Witness for claim C7 at the class-shaped name `Foo`. -/
theorem classname_call_becomes_guarded_reference_witness :
    classNameRe "Foo" = true ∧
    replaceUnsafeValue [.name "x" .store] (.call (.name "Foo" .load) []) none
      = some (.tryS [.assign [.name "x" .store] (.name "Foo" .load)] [.passS] []) :=
  ⟨by decide,
   (classname_call_becomes_guarded_reference [.name "x" .store] "Foo" .load [] "C" "a"
      .store (by decide)).1⟩

/-- Every flag produced below a definition body is `true`. -/
theorem preFlag_true_aux : ∀ n : Nat,
    (∀ s : Stmt, stmtSize s ≤ n → ∀ p ∈ preFlag true s, p.1 = true) ∧
    (∀ l : List Stmt, stmtListSize l ≤ n → ∀ p ∈ preFlagList true l, p.1 = true) := by
  intro n
  induction n with
  | zero =>
    refine ⟨fun s hs => absurd hs (by have := stmtSize_pos s; omega), ?_⟩
    intro l hl p hp
    cases l with
    | nil => simp [preFlagList] at hp
    | cons a as =>
      have := stmtSize_pos a
      simp only [stmtListSize] at hl
      omega
  | succ n ih =>
    have hstmt : ∀ s : Stmt, stmtSize s ≤ n + 1 → ∀ p ∈ preFlag true s, p.1 = true := by
      intro s hs p hp
      cases s with
      | functionDef nm b =>
        simp only [preFlag, List.mem_cons] at hp
        rcases hp with rfl | hp
        · rfl
        · exact ih.2 b (by simp only [stmtSize] at hs; omega) p hp
      | classDef nm bs b =>
        simp only [preFlag, List.mem_cons] at hp
        rcases hp with rfl | hp
        · rfl
        · exact ih.2 b (by simp only [stmtSize] at hs; omega) p hp
      | ifS t b o =>
        simp only [preFlag, List.mem_cons, List.mem_append] at hp
        rcases hp with rfl | hp | hp
        · rfl
        · exact ih.2 b (by simp only [stmtSize] at hs; omega) p hp
        · exact ih.2 o (by simp only [stmtSize] at hs; omega) p hp
      | tryS b hb o =>
        simp only [preFlag, List.mem_cons] at hp
        rcases hp with rfl | hp
        · rfl
        · rcases List.mem_append.mp hp with hp2 | hp2
          · rcases List.mem_append.mp hp2 with hp3 | hp3
            · exact ih.2 b (by simp only [stmtSize] at hs; omega) p hp3
            · exact ih.2 hb (by simp only [stmtSize] at hs; omega) p hp3
          · exact ih.2 o (by simp only [stmtSize] at hs; omega) p hp2
      | exprStmt v =>
        simp only [preFlag, List.mem_singleton] at hp
        subst hp; rfl
      | assign ts v =>
        simp only [preFlag, List.mem_singleton] at hp
        subst hp; rfl
      | importS ns =>
        simp only [preFlag, List.mem_singleton] at hp
        subst hp; rfl
      | importFrom m ns =>
        simp only [preFlag, List.mem_singleton] at hp
        subst hp; rfl
      | passS =>
        simp only [preFlag, List.mem_singleton] at hp
        subst hp; rfl
      | otherS =>
        simp only [preFlag, List.mem_singleton] at hp
        subst hp; rfl
    refine ⟨hstmt, ?_⟩
    intro l hl p hp
    cases l with
    | nil => simp [preFlagList] at hp
    | cons a as =>
      simp only [preFlagList, List.mem_append] at hp
      have ha := stmtSize_pos a
      simp only [stmtListSize] at hl
      rcases hp with hp | hp
      · exact hstmt a (by omega) p hp
      · exact ih.2 as (by omega) p hp

/-- The visitor's collection equals the flagged pre-order selection. -/
theorem collect_eq_aux : ∀ n : Nat,
    (∀ s : Stmt, stmtSize s ≤ n → collectStmt s
      = ((preFlag false s).filter (fun p => !p.1 && isImportStmt p.2)).map (fun p => p.2)) ∧
    (∀ l : List Stmt, stmtListSize l ≤ n → collectList l
      = ((preFlagList false l).filter (fun p => !p.1 && isImportStmt p.2)).map
          (fun p => p.2)) := by
  intro n
  induction n with
  | zero =>
    refine ⟨fun s hs => absurd hs (by have := stmtSize_pos s; omega), ?_⟩
    intro l hl
    cases l with
    | nil => simp [collectList, preFlagList]
    | cons a as =>
      have := stmtSize_pos a
      simp only [stmtListSize] at hl
      omega
  | succ n ih =>
    have hstmt : ∀ s : Stmt, stmtSize s ≤ n + 1 → collectStmt s
        = ((preFlag false s).filter (fun p => !p.1 && isImportStmt p.2)).map
            (fun p => p.2) := by
      intro s hs
      cases s with
      | functionDef nm b =>
        simp [collectStmt, preFlag, isImportStmt]
        intro b1 hb1
        have hfl := (preFlag_true_aux (stmtListSize b)).2 b (le_refl _) (false, b1) hb1
        simp at hfl
      | classDef nm bs b =>
        simp [collectStmt, preFlag, isImportStmt]
        intro b1 hb1
        have hfl := (preFlag_true_aux (stmtListSize b)).2 b (le_refl _) (false, b1) hb1
        simp at hfl
      | importS ns => simp [collectStmt, preFlag, isImportStmt]
      | importFrom m ns => simp [collectStmt, preFlag, isImportStmt]
      | ifS t b o =>
        have hb := ih.2 b (by simp only [stmtSize] at hs; omega)
        have ho := ih.2 o (by simp only [stmtSize] at hs; omega)
        simp [collectStmt, preFlag, List.filter_append, List.map_append, hb, ho,
          isImportStmt]
      | tryS b hb o =>
        have h1 := ih.2 b (by simp only [stmtSize] at hs; omega)
        have h2 := ih.2 hb (by simp only [stmtSize] at hs; omega)
        have h3 := ih.2 o (by simp only [stmtSize] at hs; omega)
        simp [collectStmt, preFlag, List.filter_append, List.map_append, h1, h2, h3,
          isImportStmt]
      | exprStmt v => simp [collectStmt, preFlag, isImportStmt]
      | assign ts v => simp [collectStmt, preFlag, isImportStmt]
      | passS => simp [collectStmt, preFlag, isImportStmt]
      | otherS => simp [collectStmt, preFlag, isImportStmt]
    refine ⟨hstmt, ?_⟩
    intro l hl
    cases l with
    | nil => simp [collectList, preFlagList]
    | cons a as =>
      have ha := stmtSize_pos a
      simp only [stmtListSize] at hl
      have h1 := hstmt a (by omega)
      have h2 := ih.2 as (by omega)
      simp [collectList, preFlagList, List.filter_append, List.map_append, h1, h2]

/-- Claim C8.  `get_import_code` emits exactly the import statements
lying outside function and class definition bodies, in their original
pre-order (source) order, each passed through `wrapImport`; and
`wrapImport` leaves every `from __future__ import` statement unwrapped
while wrapping each other import alone inside a `try` statement whose
bare handler is `pass` (attempt the import, silently continue past any
exception). -/
theorem import_extractor_spec (body : List Stmt) :
    getImportCode body = (specTopImports body).map wrapImport ∧
    (∀ s ∈ specTopImports body, isImportStmt s = true) ∧
    (∀ ns, wrapImport (.importS ns) = .tryS [.importS ns] [.passS] []) ∧
    (∀ m ns, ¬ m = some "__future__" →
      wrapImport (.importFrom m ns) = .tryS [.importFrom m ns] [.passS] []) ∧
    (∀ ns, wrapImport (.importFrom (some "__future__") ns)
      = .importFrom (some "__future__") ns) := by
  have hc := (collect_eq_aux (stmtListSize body)).2 body (le_refl _)
  refine ⟨?_, ?_, fun ns => rfl, ?_, fun ns => rfl⟩
  · unfold getImportCode specTopImports
    rw [hc]
  · intro s hs
    simp only [specTopImports, List.mem_map, List.mem_filter] at hs
    obtain ⟨p, ⟨hmem, hP⟩, rfl⟩ := hs
    simp only [Bool.and_eq_true] at hP
    exact hP.2
  · intro m ns h
    match m with
    | none => rfl
    | some str =>
      have hstr : ¬ str = "__future__" := fun he => h (by rw [he])
      unfold wrapImport
      split
      · rename_i nsx heq
        injection heq with h1 h2
        injection h1 with h1
        exact absurd h1 hstr
      · rfl

/-- Witness for claim C8 on a module with one top-level import, and for
the guarded wrapping of an ordinary `from ... import`. -/
theorem import_extractor_spec_witness :
    getImportCode [Stmt.importS ["os"]]
      = (specTopImports [Stmt.importS ["os"]]).map wrapImport ∧
    wrapImport (.importFrom (some "collections") ["deque"])
      = .tryS [.importFrom (some "collections") ["deque"]] [.passS] [] :=
  ⟨(import_extractor_spec [Stmt.importS ["os"]]).1,
   (import_extractor_spec []).2.2.2.1 (some "collections") ["deque"] (by decide)⟩

/-- Claim C9.  When `_import_modules` is given an explicit import list
differing from the cached one, the local namespace and both symbol caches
are cleared before the new imports run: the outcome is a pure function of
the runtime, the global dictionary and the new list (the import loop
starts from an empty local namespace, `symnames` and `symobjs` end
empty), and is therefore identical for any two context states differing
only in those caches — so no subsequent completion can see names derived
only from the previously applied import list. -/
theorem import_change_invalidates_caches (env : Env) (g : Dict) (d : Doc)
    (l : List String) (L : Dict) (N : List String) (S : Dict)
    (h : ¬ d.imports = some l) :
    (importModules env g d (some l)
      = match importLoop env l g [] with
        | (some e, g2, l2) =>
          (.error e, g2, { d with locald := l2, symnames := [], symobjs := [] })
        | (none, g2, l2) =>
          (.ok (), g2,
           { d with locald := l2, symnames := [], symobjs := [], imports := some l })) ∧
    importModules env g { d with locald := L, symnames := N, symobjs := S } (some l)
      = importModules env g d (some l) := by
  constructor
  · rcases hl : importLoop env l g [] with ⟨oe, g2, l2⟩
    cases oe <;> simp [importModules, if_neg h, hl]
  · have h2 : ¬ ({ d with locald := L, symnames := N, symobjs := S } : Doc).imports
        = some l := h
    simp only [importModules, if_neg h, if_neg h2]

/-- Witness for claim C9: a fresh context with stale-looking caches and a
clean twin produce the same result for a new import list. -/
theorem import_change_invalidates_caches_witness :
    (¬ (newDoc none).imports = some ["import math"]) ∧
    importModules envBad []
        { newDoc none with
          locald := [("a", "a")], symnames := ["a"], symobjs := [("a", "a")] }
        (some ["import math"])
      = importModules envBad [] (newDoc none) (some ["import math"]) :=
  ⟨by decide,
   (import_change_invalidates_caches envBad [] (newDoc none) ["import math"]
      [("a", "a")] ["a"] [("a", "a")] (by decide)).2⟩

/-- Claim C10.  Every document context created by `__init__` stores the
same reference — the completion module's own `globals()` dictionary —
rather than owning a fresh dictionary; consequently the collected symbol
names of any freshly created context include the module's internal
top-level names (`sys`, `os`, `inspect`, `PyCompleteDocument`), and a
binding written through one context's global reference is read back
through any other context's. -/
theorem global_namespace_aliasing :
    (∀ f1 f2 : Option String, (DocH.init f1).globaldRef = (DocH.init f2).globaldRef) ∧
    (∀ f : Option String,
      "sys" ∈ collectSymbolNamesH initHeap (DocH.init f) ∧
      "os" ∈ collectSymbolNamesH initHeap (DocH.init f) ∧
      "inspect" ∈ collectSymbolNamesH initHeap (DocH.init f) ∧
      "PyCompleteDocument" ∈ collectSymbolNamesH initHeap (DocH.init f)) ∧
    (∀ (f1 f2 : Option String) (hd : Dict) (rest : List Dict) (k : String) (v : Obj),
      alGet (GHeap.read
          (GHeap.write { dicts := hd :: rest } (DocH.init f1).globaldRef k v)
          (DocH.init f2).globaldRef) k = some v) := by
  refine ⟨fun _ _ => rfl, ?_, ?_⟩
  · intro f
    have hrw : collectSymbolNamesH initHeap (DocH.init f)
        = collectSymbolNamesH initHeap (DocH.init none) := rfl
    rw [hrw]
    exact ⟨by decide, by decide, by decide, by decide⟩
  · intro f1 f2 hd rest k v
    show alGet (GHeap.read (GHeap.write { dicts := hd :: rest } 0 k v) 0) k = some v
    simp [GHeap.read, GHeap.write, List.getD]
    exact alGet_alSet_self hd k v

end PyComplete
